import Mathlib

/-!
Verification of the nami reactive-value library (water-rs/nami).

This file shallowly embeds the data model and operations of the
signal/binding/watcher propagation engine and proves the spec's testable
properties against them. Interior mutability (Rc<RefCell<..>>) is embedded
as explicit state passing; the RefCell borrow discipline is made explicit
where a claim depends on it (a borrow_mut while a shared borrow guard is
alive is a fault). Watcher callbacks are embedded as invocation records:
a notification run returns the list of (watcher id, delivered value) pairs.
-/

namespace Nami

/-- A RefCell dynamic-borrow violation (BorrowMutError): calling borrow_mut
while a shared borrow guard is still alive panics at runtime. -/
inductive BorrowError where
  | alreadyBorrowed
deriving DecidableEq, Repr

/-- A Vec index-out-of-bounds panic (Vec::insert / Vec::remove). -/
inductive VecPanic where
  | outOfBounds
deriving DecidableEq, Repr

/-!
## Watcher registry, legacy root-crate version (src/src/watcher.rs)

`WatcherManagerInner<T>` holds a monotonically increasing `id: WatcherId`
(NonZeroUsize, starting at 1) and a `BTreeMap<WatcherId, BoxWatcher<T>>`.
We embed the map as the list of registered watcher ids in ascending key
order (ids are assigned increasingly and the BTreeMap iterates in key
order, so the list order is registration order).
-/

/-- State of `WatcherManagerInner` from src/src/watcher.rs: the next id to
assign and the registered watcher ids in ascending (BTreeMap) order. -/
structure WatcherManagerInner where
  nextId : Nat
  ids : List Nat
deriving DecidableEq, Repr

/-- A fresh registry: `id = WatcherId::MIN` (1), empty map. -/
def WatcherManagerInner.empty : WatcherManagerInner := ⟨1, []⟩

/-- `WatcherManagerInner::register`: assigns the current id, increments the
counter, inserts the watcher under the assigned id. -/
def WatcherManagerInner.register (m : WatcherManagerInner) : WatcherManagerInner × Nat :=
  (⟨m.nextId + 1, m.ids ++ [m.nextId]⟩, m.nextId)

/-- `WatcherManagerInner::cancel`: removes the id from the map. -/
def WatcherManagerInner.cancel (m : WatcherManagerInner) (id : Nat) : WatcherManagerInner :=
  ⟨m.nextId, m.ids.filter (fun i => i ≠ id)⟩

/-- `WatcherManagerInner::notify` (src/src/watcher.rs lines 281-285): for
each watcher in the map, invoke it with `Context::new(value(), metadata)`.
We record the invocations as (id, delivered value) pairs, in map order. -/
def WatcherManagerInner.notify {T : Type} (m : WatcherManagerInner) (v : T) :
    List (Nat × T) :=
  m.ids.map (fun id => (id, v))

/-!
## Container<T> (src/src/binding.rs lines 735-785)

`Container<T>` owns `value: Rc<RefCell<T>>` and
`watchers: WatcherManager<T>`. Clones share both via Rc; the embedding is
the shared state itself.
-/

/-- `Container<T>`: the shared cell value plus its watcher registry. -/
structure Container (T : Type) where
  value : T
  watchers : WatcherManagerInner
deriving DecidableEq, Repr

/-- `Signal::get` for `Container`: clones the current value. -/
def Container.get {T : Type} (c : Container T) : T := c.value

/-- `Signal::watch` for `Container`: registers the watcher in the registry
(returning a cancel-on-drop guard, embedded as the assigned id). -/
def Container.watch {T : Type} (c : Container T) : Container T × Nat :=
  let r := c.watchers.register
  (⟨c.value, r.1⟩, r.2)

/-- `CustomBinding::set` for `Container` (src/src/binding.rs lines 778-785):
replaces the stored value, then notifies the registry with the new value.
Returns the new container state and the list of watcher invocations
performed synchronously by the `set` call. -/
def Container.set {T : Type} (c : Container T) (v : T) :
    Container T × List (Nat × T) :=
  (⟨v, c.watchers⟩, c.watchers.notify v)

/-!
## Binding::filter (src/src/binding.rs lines 285-298)

`filter` builds a `Mapping` over the source binding whose getter is the
identity and whose setter is
`move |binding, value| { if filter(&value) { binding.set(value); } }`.
`Mapping::set` just invokes the setter, so setting the derived binding
either performs `source.set(value)` (predicate holds) or does nothing at
all. Watchers of the derived binding are registered on the source registry
(`Mapping::watch` subscribes to the source), so the invocation list of the
source `set` is exactly what every watcher — of the source or of the
derived binding — receives.
-/

/-- `set` on the derived binding produced by `Binding::filter`: runs the
filter setter against the source container. Returns the resulting source
state and all watcher invocations it triggered. -/
def Binding.filterSet {T : Type} (p : T → Bool) (c : Container T) (v : T) :
    Container T × List (Nat × T) :=
  if p v then c.set v else (c, [])

/-!
## Watcher registry with reentrant callbacks (C2)

To settle the snapshot claim we need callbacks that can themselves mutate
the registry. A callback's effect on the registry is embedded as a
`CbAction`; invoking the callback applies its action to the registry
state.
-/

/-- The registry-relevant effect a watcher callback performs during its own
execution: nothing, registering a new (passive) watcher, or cancelling a
watcher by id. -/
inductive CbAction where
  | pure
  | registerNew
  | cancel (id : Nat)
deriving DecidableEq, Repr

/-- Registry state for the reentrancy model: next id plus the map of
registered callbacks (id, action) in ascending key order. Models both the
nami-core `WatcherManagerInner<T>` and the legacy root-crate one, which
have identical fields. -/
structure WatcherManager where
  nextId : Nat
  map : List (Nat × CbAction)
deriving DecidableEq, Repr

/-- `WatcherManagerInner::register` in the reentrancy model: new watchers
registered from inside a callback are passive. -/
def WatcherManager.register (m : WatcherManager) : WatcherManager :=
  ⟨m.nextId + 1, m.map ++ [(m.nextId, CbAction.pure)]⟩

/-- `WatcherManagerInner::cancel` in the reentrancy model. -/
def WatcherManager.cancelId (m : WatcherManager) (id : Nat) : WatcherManager :=
  ⟨m.nextId, m.map.filter (fun p => p.1 ≠ id)⟩

/-- Invoking a callback applies its registry effect. -/
def CbAction.apply : CbAction → WatcherManager → WatcherManager
  | CbAction.pure, m => m
  | CbAction.registerNew, m => m.register
  | CbAction.cancel id, m => m.cancelId id

/-- Iteration core of `WatcherManager::notify` from src/core/src/watcher.rs:
walk the snapshot, invoking each callback against the current registry
state (the registry borrow was released before any invocation, so
reentrant register/cancel succeed). Accumulates the invoked ids. -/
def notifySnapshotGo : List (Nat × CbAction) → WatcherManager → List Nat →
    WatcherManager × List Nat
  | [], m, acc => (m, acc)
  | (id, act) :: rest, m, acc => notifySnapshotGo rest (act.apply m) (acc ++ [id])

/-- `WatcherManager::notify` (src/core/src/watcher.rs lines 289-305): takes
`watchers_snapshot()` under a short-lived borrow, releases the borrow, then
invokes every snapshotted callback. Returns the final registry state and
the list of invoked watcher ids, in snapshot order. -/
def WatcherManager.notify (m : WatcherManager) : WatcherManager × List Nat :=
  notifySnapshotGo m.map m []

/-- Iteration core of the legacy notify from src/src/watcher.rs: the
`RefCell` shared borrow taken by `WatcherManager::notify`
(`this.borrow().notify(..)`) stays alive across every callback invocation,
so a callback that calls `register` or `cancel` needs `borrow_mut` while
the shared borrow is held — a `BorrowMutError` panic. -/
def notifyLegacyGo : List (Nat × CbAction) → WatcherManager → List Nat →
    Except BorrowError (WatcherManager × List Nat)
  | [], m, acc => Except.ok (m, acc)
  | (id, act) :: rest, m, acc =>
    match act with
    | CbAction.pure => notifyLegacyGo rest m (acc ++ [id])
    | _ => Except.error BorrowError.alreadyBorrowed

/-- `WatcherManagerInner::notify` reached through the legacy
`WatcherManager::notify` (src/src/watcher.rs lines 220-226 and 281-285):
iterates the live map while the registry borrow is held. -/
def WatcherManager.notifyLegacy (m : WatcherManager) :
    Except BorrowError (WatcherManager × List Nat) :=
  notifyLegacyGo m.map m []

/-!
## Distinct<S> (src/src/distinct.rs lines 48-63)

The watch closure is, faithfully to the source:

  let last_value = last_value_store.borrow();          — shared borrow, held
  if let Some(last_value) = &*last_value {             —   until the end of
    if last_value != ctx.value() {                     —   the closure body
      *last_value_store.borrow_mut() = Some(..);       — needs no live borrow
      watcher(ctx);
    }
  } else {
    *last_value_store.borrow_mut() = Some(..);         — needs no live borrow
    watcher(ctx);
  }

The `Ref` guard bound to `last_value` has a destructor, so it lives to the
end of the closure body; both `borrow_mut` calls therefore execute with one
shared borrow outstanding. The embedding tracks that count explicitly.
-/

/-- One upstream notification delivered to the `Distinct` watch closure.
`store` is the shared `last_value` cell content; `v` the notified value.
Returns the new cell content and the values forwarded to the watcher, or
the borrow fault the closure hits. -/
def Distinct.onUpstream {T : Type} [DecidableEq T] (store : Option T) (v : T) :
    Except BorrowError (Option T × List T) :=
  -- `let last_value = last_value_store.borrow()`: guard alive for the body
  let outstandingSharedBorrows : Nat := 1
  match store with
  | some lastValue =>
    if lastValue ≠ v then
      if outstandingSharedBorrows = 0 then Except.ok (some v, [v])
      else Except.error BorrowError.alreadyBorrowed
    else
      Except.ok (store, [])
  | none =>
    if outstandingSharedBorrows = 0 then Except.ok (some v, [v])
    else Except.error BorrowError.alreadyBorrowed

/-!
## Cached<C> (src/src/cache.rs)

`Cached` owns `cache: Rc<RefCell<Option<C::Output>>>` plus a hidden
subscription whose callback unconditionally overwrites the cache with each
source notification. `get` counts as one call to `source.get()` exactly
when the cache is empty.
-/

/-- The cache cell of `Cached<C>`. -/
structure Cached (T : Type) where
  cache : Option T
deriving DecidableEq, Repr

/-- `Cached::new` (src/src/cache.rs lines 36-51): the cache starts empty
(`Rc::default`); the hidden subscription is installed at construction. -/
def Cached.new {T : Type} : Cached T := ⟨none⟩

/-- The hidden subscription callback (src/src/cache.rs lines 40-43):
`*cache.borrow_mut() = Some(value)` for every source notification. -/
def Cached.onSourceNotify {T : Type} (_c : Cached T) (v : T) : Cached T :=
  ⟨some v⟩

/-- `Signal::get` for `Cached` (src/src/cache.rs lines 61-70). `sourceGet`
is the value `source.get()` would produce. Returns the produced value, the
new cache state, and the number of `source.get()` calls performed (0 or 1). -/
def Cached.get {T : Type} (c : Cached T) (sourceGet : T) : T × Cached T × Nat :=
  match c.cache with
  | some cachedValue => (cachedValue, c, 0)
  | none => (sourceGet, ⟨some sourceGet⟩, 1)

/-- `n` consecutive calls to `Cached::get` within one interval (no source
notification in between); returns the final cache state and the total
number of `source.get()` calls performed. -/
def Cached.gets {T : Type} (c : Cached T) (sourceGet : T) : Nat → Cached T × Nat
  | 0 => (c, 0)
  | n + 1 =>
    let r := c.get sourceGet
    let rest := Cached.gets r.2.1 sourceGet n
    (rest.1, r.2.2 + rest.2)

/-!
## Zip<A,B> (src/src/zip.rs lines 143-174)

`Zip::watch` seeds `latest_a`/`latest_b` from `a.get()`/`b.get()` at
subscription time, then subscribes to both sides. The a-side callback
stores the new value into `latest_a`, reads `latest_b`, and fires the
downstream watcher with `(new_a, latest_b)`; the b-side is symmetric.
-/

/-- The two `Rc<RefCell<..>>` last-known cells of one `Zip::watch`
subscription. -/
structure ZipWatchState (A B : Type) where
  latest_a : A
  latest_b : B
deriving DecidableEq, Repr

/-- An upstream notification arriving at one side of the `Zip`. -/
inductive ZipEvent (A B : Type) where
  | fromA (a : A)
  | fromB (b : B)

/-- Seeding of the last-known cells at subscription time
(src/src/zip.rs lines 146-147), for sources that are `Container`s. -/
def Zip.seed {A B : Type} (ca : Container A) (cb : Container B) : ZipWatchState A B :=
  ⟨ca.get, cb.get⟩

/-- One upstream notification processed by the `Zip::watch` callbacks:
returns the updated cells and the single tuple fired downstream. -/
def Zip.watchStep {A B : Type} (st : ZipWatchState A B) :
    ZipEvent A B → ZipWatchState A B × (A × B)
  | ZipEvent.fromA a => (⟨a, st.latest_b⟩, (a, st.latest_b))
  | ZipEvent.fromB b => (⟨st.latest_a, b⟩, (st.latest_a, b))

/-!
## List<T> (src/src/collection.rs lines 76-165)

`List<T>` owns `vec: Rc<RefCell<Vec<T>>>` and a watcher manager. Each
mutating operation returns the new contents together with the list of
notify events it issued, each event carrying the full current contents
(`vec_clone.borrow().to_vec()`). `Vec::insert` panics when `index > len`;
`Vec::remove` panics when `index >= len`. Named `RList` because `List` is
taken by Lean's list type.
-/

/-- The shared contents of a `List<T>`. -/
structure RList (T : Type) where
  vec : List T
deriving DecidableEq, Repr

/-- `List::push` (lines 103-111): push, then one notification with the full
contents. -/
def RList.push {T : Type} (l : RList T) (v : T) : RList T × List (List T) :=
  (⟨l.vec ++ [v]⟩, [l.vec ++ [v]])

/-- `List::pop` (lines 115-126): pop; notify (full contents) only when an
element was actually removed. -/
def RList.pop {T : Type} (l : RList T) : Option T × RList T × List (List T) :=
  match l.vec.getLast? with
  | none => (none, l, [])
  | some x => (some x, ⟨l.vec.dropLast⟩, [l.vec.dropLast])

/-- `List::insert` (lines 129-137): `Vec::insert` (panics when
`index > len`), then one notification with the full contents. -/
def RList.insert {T : Type} (l : RList T) (index : Nat) (v : T) :
    Except VecPanic (RList T × List (List T)) :=
  if index ≤ l.vec.length then
    Except.ok (⟨l.vec.insertIdx index v⟩, [l.vec.insertIdx index v])
  else Except.error VecPanic.outOfBounds

/-- `List::remove` (lines 141-150): `Vec::remove` (panics when
`index >= len`), then one notification with the full contents. -/
def RList.remove {T : Type} (l : RList T) (index : Nat) :
    Except VecPanic (T × RList T × List (List T)) :=
  match l.vec[index]? with
  | some x => Except.ok (x, ⟨l.vec.eraseIdx index⟩, [l.vec.eraseIdx index])
  | none => Except.error VecPanic.outOfBounds

/-- `List::clear` (lines 153-164): records `was_empty`, clears, notifies
only when the list was non-empty. -/
def RList.clear {T : Type} (l : RList T) : RList T × List (List T) :=
  if l.vec.isEmpty then (⟨[]⟩, []) else (⟨[]⟩, [([] : List T)])

/-!
## List range-watching (src/src/collection.rs lines 192-259)

`List::watch` converts the range to concrete start/end `Bound`s, then —
before registering anything — resolves them against the current length and
invokes the watcher immediately with the clamped slice, provided
`start < len && start < end`.
-/

/-- A captured `core::ops::Bound<usize>`. -/
inductive RangeBound where
  | included (n : Nat)
  | excluded (n : Nat)
  | unbounded
deriving DecidableEq, Repr

/-- Start-index resolution (src/src/collection.rs lines 218-222). -/
def startIndex : RangeBound → Nat
  | RangeBound.included n => n
  | RangeBound.excluded n => n + 1
  | RangeBound.unbounded => 0

/-- End-index resolution against the current length
(src/src/collection.rs lines 223-227). -/
def endIndex (len : Nat) : RangeBound → Nat
  | RangeBound.included n => min (n + 1) len
  | RangeBound.excluded n => min n len
  | RangeBound.unbounded => len

/-- The immediate initial invocation performed by `List::watch`
(src/src/collection.rs lines 211-234): `some slice` when the watcher is
invoked with the clamped range contents, `none` when it is not invoked. -/
def RList.watchInit {T : Type} (l : RList T) (sb eb : RangeBound) :
    Option (List T) :=
  let len := l.vec.length
  let start := startIndex sb
  let stop := endIndex len eb
  if start < len && start < stop then
    some ((l.vec.drop start).take (stop - start))
  else none

/-!
## Debounce / Throttle upstream subscription (C8, C9)

Both operators keep `guard: Rc<RefCell<Option<S::Guard>>>`, shared across
clones. `watch` runs `self.guard.borrow_mut().get_or_insert_with(|| signal.watch(..))`
and then registers the downstream watcher, so the upstream subscription is
created on the first `watch` call only.
-/

/-- The shared subscription state of a `Debounce`/`Throttle` instance:
the `guard` cell, the number of upstream subscriptions ever created, and
the number of registered downstream watchers. -/
structure SubscriptionState where
  guard : Option Nat
  upstreamSubs : Nat
  downstream : Nat
deriving DecidableEq, Repr

/-- The state right after `with_executor`: `guard: Rc::default()` (None),
no upstream subscription, no downstream watchers. -/
def SubscriptionState.fresh : SubscriptionState := ⟨none, 0, 0⟩

/-- One call to `Debounce::watch` (src/src/debounce.rs lines 88-119):
`get_or_insert_with` creates the upstream subscription only when the guard
cell is empty; the downstream watcher is always registered. -/
def Debounce.watchCall (st : SubscriptionState) : SubscriptionState :=
  match st.guard with
  | some _ => ⟨st.guard, st.upstreamSubs, st.downstream + 1⟩
  | none => ⟨some st.upstreamSubs, st.upstreamSubs + 1, st.downstream + 1⟩

/-- One call to `Throttle::watch` (src/src/throttle.rs lines 92-129): the
same `get_or_insert_with` discipline. -/
def Throttle.watchCall (st : SubscriptionState) : SubscriptionState :=
  match st.guard with
  | some _ => ⟨st.guard, st.upstreamSubs, st.downstream + 1⟩
  | none => ⟨some st.upstreamSubs, st.upstreamSubs + 1, st.downstream + 1⟩

/-- `n` successive `Debounce::watch` calls (possibly through clones — the
state is the shared Rc contents). -/
def Debounce.watchCalls (st : SubscriptionState) : Nat → SubscriptionState
  | 0 => st
  | n + 1 => Debounce.watchCall (Debounce.watchCalls st n)

/-- `n` successive `Throttle::watch` calls. -/
def Throttle.watchCalls (st : SubscriptionState) : Nat → SubscriptionState
  | 0 => st
  | n + 1 => Throttle.watchCall (Throttle.watchCalls st n)

/-!
## Throttle state machine (src/src/throttle.rs lines 92-129)

The upstream callback: if `throttled.get()` return (drop); otherwise notify
downstream immediately, set `throttled`, and spawn a timer task that
resets `throttled` after the duration. Timer expiry is the `timerFire`
event.
-/

/-- The mutable scheduling state of a `Throttle`: the `throttled` flag and
whether a live (not yet fired) timer task is pending. -/
structure ThrottleState where
  throttled : Bool
  timerPending : Bool
deriving DecidableEq, Repr

/-- Events driving the `Throttle` state machine. -/
inductive ThrottleEvent (T : Type) where
  | upstream (v : T)
  | timerFire

/-- One event processed by the `Throttle`: returns the new state and the
values forwarded to the Throttle's own watchers. -/
def Throttle.step {T : Type} (st : ThrottleState) :
    ThrottleEvent T → ThrottleState × List T
  | ThrottleEvent.upstream v =>
    if st.throttled then (st, [])
    else (⟨true, true⟩, [v])
  | ThrottleEvent.timerFire => (⟨false, false⟩, [])

/-!
## Theorems
-/

/-- Helper for C1: filtering a duplicate-free list for one of its members
yields exactly that member once. -/
theorem filter_eq_self_of_nodup (id : Nat) :
    ∀ l : List Nat, l.Nodup → id ∈ l → l.filter (fun i => i = id) = [id] := by
  intro l
  induction l with
  | nil => intro _ hmem; exact absurd hmem (List.not_mem_nil id)
  | cons a as ih =>
    intro hnd hmem
    rcases List.mem_cons.mp hmem with rfl | hmem2
    · have hnotin : id ∉ as := (List.nodup_cons.mp hnd).1
      have hfil : as.filter (fun i => i = id) = [] := by
        rw [List.filter_eq_nil_iff]
        intro b hb
        simp only [decide_eq_true_eq]
        intro heq
        exact hnotin (heq ▸ hb)
      simp [List.filter_cons, hfil]
    · have hne : a ≠ id := by
        rintro rfl
        exact (List.nodup_cons.mp hnd).1 hmem2
      have hrest := ih (List.nodup_cons.mp hnd).2 hmem2
      simp [List.filter_cons, hne, hrest]

/-- C1: after `c.set(v)`, `c.get()` returns `v`, and the watchers registered
before the `set` call are exactly the ones invoked during the `set`, each
exactly once (provided the registry ids are distinct, which registration
maintains), each receiving the value `v`. The invocation list is produced
by `set` itself, i.e. synchronously. -/
theorem container_set_get_and_notify {T : Type} [DecidableEq T]
    (c : Container T) (v : T) (h : c.watchers.ids.Nodup) :
    (c.set v).1.get = v ∧
    ((c.set v).2.map Prod.fst = c.watchers.ids) ∧
    (∀ p ∈ (c.set v).2, p.2 = v) ∧
    (∀ id ∈ c.watchers.ids, (c.set v).2.filter (fun p => p.1 = id) = [(id, v)]) := by
  refine ⟨rfl, ?_, ?_, ?_⟩
  · simp only [Container.set, WatcherManagerInner.notify, List.map_map]
    have hcomp : (Prod.fst ∘ fun i : Nat => (i, v)) = fun i : Nat => i := rfl
    rw [hcomp]
    simp
  · intro p hp
    simp only [Container.set, WatcherManagerInner.notify, List.mem_map] at hp
    obtain ⟨id, _, rfl⟩ := hp
    rfl
  · intro id hid
    have hf := filter_eq_self_of_nodup id c.watchers.ids h hid
    simp only [Container.set, WatcherManagerInner.notify]
    rw [List.filter_map]
    have hcomp : ((fun p : Nat × T => decide (p.1 = id)) ∘ fun i : Nat => (i, v))
        = fun i : Nat => decide (i = id) := rfl
    rw [hcomp, hf]
    rfl

/-- Witness for C1 at a concrete container (value 5, watchers 1 and 2),
setting 7. -/
theorem container_set_get_and_notify_witness :
    ((Container.mk (5 : Nat) ⟨3, [1, 2]⟩).set 7).1.get = 7 ∧
    (((Container.mk (5 : Nat) ⟨3, [1, 2]⟩).set 7).2.map Prod.fst = [1, 2]) ∧
    (∀ p ∈ ((Container.mk (5 : Nat) ⟨3, [1, 2]⟩).set 7).2, p.2 = 7) ∧
    (∀ id ∈ [1, 2],
      ((Container.mk (5 : Nat) ⟨3, [1, 2]⟩).set 7).2.filter (fun p => p.1 = id)
        = [(id, 7)]) :=
  container_set_get_and_notify ⟨5, ⟨3, [1, 2]⟩⟩ 7 (by decide)

/-- C2 counterexample: in the legacy registry of src/src/watcher.rs, a
callback that registers a new watcher during its own execution does not
complete without fault — `notify` holds the registry borrow across the
invocation, so the reentrant `register` hits a `BorrowMutError`. Concrete
input: a registry holding the single watcher id 1 whose callback registers
a new watcher. -/
theorem notify_legacy_reentrant_register_faults :
    (WatcherManager.notifyLegacy ⟨2, [(1, CbAction.registerNew)]⟩).isOk = false := by
  decide

/-- Helper for C2: the ids invoked by the snapshot walk are the snapshot's
ids, regardless of what the callbacks do to the registry. -/
theorem notifySnapshotGo_invoked (l : List (Nat × CbAction)) :
    ∀ (m : WatcherManager) (acc : List Nat),
      (notifySnapshotGo l m acc).2 = acc ++ l.map Prod.fst := by
  induction l with
  | nil => intro m acc; simp [notifySnapshotGo]
  | cons p rest ih =>
    intro m acc
    cases p with
    | mk id act => simp [notifySnapshotGo, ih]

/-- C2 (amended): the snapshot-based `WatcherManager::notify` of
src/core/src/watcher.rs invokes exactly the callbacks registered at the
moment notify begins — each exactly once when the registry ids are
distinct — no matter how those callbacks register or cancel watchers
reentrantly, and the run always completes (the reentrant mutations land in
the resulting registry state, affecting only future notifications). -/
theorem notify_snapshot_semantics (m : WatcherManager) :
    (m.notify).2 = m.map.map Prod.fst ∧
    ((m.map.map Prod.fst).Nodup →
      ∀ id ∈ m.map.map Prod.fst, (m.notify).2.count id = 1) := by
  have hrun : (m.notify).2 = m.map.map Prod.fst := by
    simpa using notifySnapshotGo_invoked m.map m []
  refine ⟨hrun, ?_⟩
  intro hnd id hid
  rw [hrun]
  exact List.count_eq_one_of_mem hnd hid

/-- Witness for C2's amended theorem: registry with watchers 1 (registers a
new watcher reentrantly) and 2 (cancels watcher 1 reentrantly); both are
invoked, each exactly once. -/
theorem notify_snapshot_semantics_witness :
    (WatcherManager.notify ⟨3, [(1, CbAction.registerNew), (2, CbAction.cancel 1)]⟩).2.count 1 = 1 :=
  (notify_snapshot_semantics ⟨3, [(1, CbAction.registerNew), (2, CbAction.cancel 1)]⟩).2
    (by decide) 1 (by decide)

/-- C3: evaluating the `Distinct` watch closure at concrete inputs. Both
forwarding paths (first-ever notification; value different from the
recorded one) fault with a RefCell `BorrowMutError`, because the closure
writes the cell through `borrow_mut` while the `Ref` guard from line 51 of
src/src/distinct.rs is still alive; only the value-unchanged path (which
never writes) completes, forwarding nothing. -/
theorem distinct_forwarding_notification_panics :
    Distinct.onUpstream (none : Option Nat) 5 = Except.error BorrowError.alreadyBorrowed ∧
    Distinct.onUpstream (some (5 : Nat)) 7 = Except.error BorrowError.alreadyBorrowed ∧
    Distinct.onUpstream (some (5 : Nat)) 5 = Except.ok (some 5, []) :=
  ⟨rfl, rfl, rfl⟩

/-- Helper for C4: once the cache holds a value, any number of further
`get` calls performs zero `source.get()` calls and leaves the cache as is. -/
theorem cached_gets_of_some {T : Type} (x s : T) :
    ∀ n, Cached.gets ⟨some x⟩ s n = (⟨some x⟩, 0) := by
  intro n
  induction n with
  | zero => rfl
  | succ k ih => simp [Cached.gets, Cached.get, ih]

/-- C4: in any interval between two consecutive source notifications
(equivalently: starting from an arbitrary cache state, including the empty
cache present from construction), `n` calls to `Cached::get` perform at
most one `source.get()` call in total; and immediately after the hidden
subscription has delivered a source notification with value `v`,
`Cached::get` returns `v` with zero `source.get()` calls. -/
theorem cached_source_get_at_most_once {T : Type} :
    (∀ (c : Cached T) (s : T) (n : Nat), (Cached.gets c s n).2 ≤ 1) ∧
    (∀ (c : Cached T) (v s : T),
      (c.onSourceNotify v).get s = (v, c.onSourceNotify v, 0)) := by
  constructor
  · intro c s n
    cases hc : c.cache with
    | some x =>
      have : c = ⟨some x⟩ := by cases c; simp_all
      rw [this, cached_gets_of_some]
      exact Nat.zero_le 1
    | none =>
      cases n with
      | zero => simp [Cached.gets]
      | succ k =>
        have hcn : c = ⟨none⟩ := by cases c; simp_all
        rw [hcn]
        simp [Cached.gets, Cached.get, cached_gets_of_some]
  · intro c v s
    rfl

/-- C5: each upstream notification on either side of a `Zip` produces
exactly one downstream tuple combining the firing side's new value with
the other side's last-known value, updating only the firing side's stored
value; and the concrete scenario: a Zip of two Containers seeded at
`(1, "a")`, setting the first to 2 fires `(2, "a")`, then setting the
second to "b" fires `(2, "b")`. -/
theorem zip_notification_semantics :
    (∀ (A B : Type) (st : ZipWatchState A B) (a : A),
      Zip.watchStep st (ZipEvent.fromA a) = (⟨a, st.latest_b⟩, (a, st.latest_b))) ∧
    (∀ (A B : Type) (st : ZipWatchState A B) (b : B),
      Zip.watchStep st (ZipEvent.fromB b) = (⟨st.latest_a, b⟩, (st.latest_a, b))) ∧
    (Zip.seed (Container.mk (1 : Int) WatcherManagerInner.empty)
      (Container.mk "a" WatcherManagerInner.empty) = ⟨1, "a"⟩) ∧
    (Zip.watchStep (⟨1, "a"⟩ : ZipWatchState Int String) (ZipEvent.fromA 2)
      = (⟨2, "a"⟩, (2, "a"))) ∧
    (Zip.watchStep (⟨2, "a"⟩ : ZipWatchState Int String) (ZipEvent.fromB "b")
      = (⟨2, "b"⟩, (2, "b"))) :=
  ⟨fun _ _ _ _ => rfl, fun _ _ _ _ => rfl, rfl, rfl, rfl⟩

/-- C6: every mutating `List` operation performs its mutation and then
issues exactly one notification carrying the full current contents, except
the no-op mutations: `pop` on an empty list returns `none` and fires
nothing, and `clear` on an already-empty list fires nothing (`clear` on a
non-empty list fires exactly one). -/
theorem rlist_mutation_notifications {T : Type} (l : RList T) (v : T) (i : Nat) :
    ((RList.push l v).1.vec = l.vec ++ [v] ∧
      (RList.push l v).2 = [(RList.push l v).1.vec]) ∧
    (RList.pop (⟨[]⟩ : RList T) = (none, ⟨[]⟩, [])) ∧
    (l.vec ≠ [] →
      (RList.pop l).1 = l.vec.getLast? ∧
      (RList.pop l).2.1.vec = l.vec.dropLast ∧
      (RList.pop l).2.2 = [(RList.pop l).2.1.vec]) ∧
    (i ≤ l.vec.length →
      RList.insert l i v = Except.ok (⟨l.vec.insertIdx i v⟩, [l.vec.insertIdx i v])) ∧
    (i < l.vec.length →
      ∃ x, RList.remove l i = Except.ok (x, ⟨l.vec.eraseIdx i⟩, [l.vec.eraseIdx i])) ∧
    (l.vec = [] → RList.clear l = (⟨[]⟩, [])) ∧
    (l.vec ≠ [] →
      (RList.clear l).1.vec = [] ∧ (RList.clear l).2 = [(RList.clear l).1.vec]) := by
  refine ⟨⟨rfl, rfl⟩, rfl, ?_, ?_, ?_, ?_, ?_⟩
  · intro hne
    have hlast : l.vec.getLast? ≠ none := by
      cases hv : l.vec with
      | nil => exact absurd hv hne
      | cons a as => simp [List.getLast?_eq_none_iff, hv]
    cases hg : l.vec.getLast? with
    | none => exact absurd hg hlast
    | some x => simp [RList.pop, hg]
  · intro hle
    simp [RList.insert, hle]
  · intro hlt
    refine ⟨l.vec.get ⟨i, hlt⟩, ?_⟩
    simp [RList.remove, List.getElem?_eq_getElem hlt, List.get_eq_getElem]
  · intro he
    simp [RList.clear, he]
  · intro hne
    have : l.vec.isEmpty = false := by
      cases hv : l.vec with
      | nil => exact absurd hv hne
      | cons a as => rfl
    simp [RList.clear, this]

/-- Witness for C6: `push 4` on `[1,2,3]` yields `[1,2,3,4]` with exactly
one notification of the full contents; `pop` on `[]` returns `none` with no
notification; `pop` on `[1,2,3]` fires once; `insert`/`remove` at index 1
fire once; `clear` on `[]` fires nothing while `clear` on `[1,2,3]` fires
exactly one notification. -/
theorem rlist_mutation_notifications_witness :
    ((RList.push (⟨[1, 2, 3]⟩ : RList Nat) 4).1.vec = [1, 2, 3, 4] ∧
      (RList.push (⟨[1, 2, 3]⟩ : RList Nat) 4).2 = [[1, 2, 3, 4]]) ∧
    (RList.pop (⟨[]⟩ : RList Nat) = (none, ⟨[]⟩, [])) ∧
    ((RList.pop (⟨[1, 2, 3]⟩ : RList Nat)).1 = some 3 ∧
      (RList.pop (⟨[1, 2, 3]⟩ : RList Nat)).2.1.vec = [1, 2] ∧
      (RList.pop (⟨[1, 2, 3]⟩ : RList Nat)).2.2 = [[1, 2]]) ∧
    (RList.insert (⟨[1, 2, 3]⟩ : RList Nat) 1 4
      = Except.ok (⟨[1, 4, 2, 3]⟩, [[1, 4, 2, 3]])) ∧
    (∃ x, RList.remove (⟨[1, 2, 3]⟩ : RList Nat) 1
      = Except.ok (x, ⟨[1, 3]⟩, [[1, 3]])) ∧
    (RList.clear (⟨[]⟩ : RList Nat) = (⟨[]⟩, [])) ∧
    ((RList.clear (⟨[1, 2, 3]⟩ : RList Nat)).1.vec = [] ∧
      (RList.clear (⟨[1, 2, 3]⟩ : RList Nat)).2 = [[]]) := by
  have h := rlist_mutation_notifications (⟨[1, 2, 3]⟩ : RList Nat) 4 1
  have hemp := rlist_mutation_notifications (⟨[]⟩ : RList Nat) 4 1
  exact ⟨h.1, h.2.1, h.2.2.1 (by decide), h.2.2.2.1 (by decide),
    h.2.2.2.2.1 (by decide), hemp.2.2.2.2.2.1 rfl, h.2.2.2.2.2.2 (by decide)⟩

/-- C7: `set` on a `filter`-derived binding with a value failing the
predicate is a silent no-op — the source container is unchanged and no
watcher (of the source, hence of any derived binding watching through it)
is invoked; with a passing value it behaves exactly as `set` on the source
binding. -/
theorem filter_set_semantics {T : Type} (c : Container T) (p : T → Bool) (v : T) :
    (p v = false → Binding.filterSet p c v = (c, [])) ∧
    (p v = true → Binding.filterSet p c v = c.set v) := by
  constructor
  · intro h; simp [Binding.filterSet, h]
  · intro h; simp [Binding.filterSet, h]

/-- Witness for C7: a container holding 5 with watcher 1, filtered by
`n < 10`; setting 20 is dropped silently, setting 7 notifies watcher 1. -/
theorem filter_set_semantics_witness :
    Binding.filterSet (fun n => n < 10) (Container.mk (5 : Nat) ⟨2, [1]⟩) 20
      = (Container.mk 5 ⟨2, [1]⟩, []) ∧
    Binding.filterSet (fun n => n < 10) (Container.mk (5 : Nat) ⟨2, [1]⟩) 7
      = (Container.mk (5 : Nat) ⟨2, [1]⟩).set 7 :=
  ⟨(filter_set_semantics (Container.mk 5 ⟨2, [1]⟩) (fun n => n < 10) 20).1 (by decide),
   (filter_set_semantics (Container.mk 5 ⟨2, [1]⟩) (fun n => n < 10) 7).2 (by decide)⟩

/-- C8: the `Throttle` state machine — an upstream notification while Open
forwards immediately, moves to Suppressed and starts the timer; an
upstream notification while Suppressed is dropped entirely; the timer
firing returns the state to Open, so the next upstream notification again
forwards immediately. -/
theorem throttle_state_machine {T : Type} (v w : T) (st : ThrottleState)
    (tp : Bool) :
    (Throttle.step ⟨false, tp⟩ (ThrottleEvent.upstream v) = (⟨true, true⟩, [v])) ∧
    (Throttle.step ⟨true, tp⟩ (ThrottleEvent.upstream v) = (⟨true, tp⟩, [])) ∧
    (Throttle.step st (ThrottleEvent.timerFire : ThrottleEvent T) = (⟨false, false⟩, [])) ∧
    (Throttle.step (Throttle.step st (ThrottleEvent.timerFire : ThrottleEvent T)).1
      (ThrottleEvent.upstream w) = (⟨true, true⟩, [w])) :=
  ⟨rfl, rfl, rfl, rfl⟩

/-- C9: for both `Debounce` and `Throttle`, starting from a freshly
constructed instance, the upstream subscription is created exactly once by
the first `watch` call — after any `n ≥ 1` calls (clones included, since
the guard cell is shared) exactly one upstream subscription was ever
created, while all `n` downstream watchers registered; with zero `watch`
calls no upstream subscription exists (laziness). -/
theorem lazy_single_upstream_subscription (n : Nat) (h : 1 ≤ n) :
    (Debounce.watchCalls SubscriptionState.fresh n).upstreamSubs = 1 ∧
    (Throttle.watchCalls SubscriptionState.fresh n).upstreamSubs = 1 ∧
    (Debounce.watchCalls SubscriptionState.fresh n).downstream = n ∧
    (Throttle.watchCalls SubscriptionState.fresh n).downstream = n ∧
    (Debounce.watchCalls SubscriptionState.fresh 0).upstreamSubs = 0 ∧
    (Throttle.watchCalls SubscriptionState.fresh 0).upstreamSubs = 0 := by
  have key : ∀ m : Nat,
      Debounce.watchCalls SubscriptionState.fresh (m + 1) = ⟨some 0, 1, m + 1⟩ ∧
      Throttle.watchCalls SubscriptionState.fresh (m + 1) = ⟨some 0, 1, m + 1⟩ := by
    intro m
    induction m with
    | zero => exact ⟨rfl, rfl⟩
    | succ k ih =>
      constructor
      · show Debounce.watchCall (Debounce.watchCalls SubscriptionState.fresh (k + 1)) = _
        rw [ih.1]; rfl
      · show Throttle.watchCall (Throttle.watchCalls SubscriptionState.fresh (k + 1)) = _
        rw [ih.2]; rfl
  obtain ⟨m, rfl⟩ : ∃ m, n = m + 1 := ⟨n - 1, by omega⟩
  have hk := key m
  exact ⟨by rw [hk.1], by rw [hk.2], by rw [hk.1], by rw [hk.2], rfl, rfl⟩

/-- Witness for C9 at three `watch` calls. -/
theorem lazy_single_upstream_subscription_witness :
    (Debounce.watchCalls SubscriptionState.fresh 3).upstreamSubs = 1 ∧
    (Throttle.watchCalls SubscriptionState.fresh 3).upstreamSubs = 1 ∧
    (Debounce.watchCalls SubscriptionState.fresh 3).downstream = 3 ∧
    (Throttle.watchCalls SubscriptionState.fresh 3).downstream = 3 ∧
    (Debounce.watchCalls SubscriptionState.fresh 0).upstreamSubs = 0 ∧
    (Throttle.watchCalls SubscriptionState.fresh 0).upstreamSubs = 0 :=
  lazy_single_upstream_subscription 3 (by decide)

/-- Helper for C10: the resolved end bound never exceeds the length. -/
theorem endIndex_le (len : Nat) (b : RangeBound) : endIndex len b ≤ len := by
  cases b <;> simp [endIndex]

/-- C10: `List::watch` invokes the watcher exactly once, synchronously,
before registering anything, with the contents of the clamped range —
precisely when the resolved `[start, stop)` bound against the current
length is non-empty and `start` is within the current length; otherwise
the watcher is not invoked at registration time. The delivered slice has
length `stop - start` and its element at position `i` is the list element
at position `start + i`. -/
theorem rlist_watch_initial_invocation {T : Type} (l : RList T)
    (sb eb : RangeBound) :
    (startIndex sb < l.vec.length ∧ startIndex sb < endIndex l.vec.length eb →
      ∃ s, RList.watchInit l sb eb = some s ∧
        s.length = endIndex l.vec.length eb - startIndex sb ∧
        ∀ i, i < s.length → s[i]? = l.vec[startIndex sb + i]?) ∧
    (¬ (startIndex sb < l.vec.length ∧ startIndex sb < endIndex l.vec.length eb) →
      RList.watchInit l sb eb = none) := by
  constructor
  · rintro ⟨h1, h2⟩
    refine ⟨(l.vec.drop (startIndex sb)).take (endIndex l.vec.length eb - startIndex sb),
      ?_, ?_, ?_⟩
    · simp only [RList.watchInit]
      rw [if_pos]
      simp [h1, h2]
    · have hle := endIndex_le l.vec.length eb
      simp only [List.length_take, List.length_drop]
      omega
    · intro i hi
      simp only [List.length_take, List.length_drop] at hi
      rw [List.getElem?_take_of_lt (by omega), List.getElem?_drop]
  · intro hcond
    simp only [RList.watchInit]
    rw [if_neg]
    simp only [Bool.and_eq_true, decide_eq_true_eq, not_and]
    intro h1 h2
    exact hcond ⟨of_decide_eq_true (by simp [h1]), of_decide_eq_true (by simp [h2])⟩

/-- Witness for C10: watching `1..4` on `[1,2,3,4,5]` immediately delivers
a slice of length 3 whose elements are those at indices 1,2,3; watching
`10..20` or `2..2` delivers nothing. -/
theorem rlist_watch_initial_invocation_witness :
    (∃ s, RList.watchInit (⟨[1, 2, 3, 4, 5]⟩ : RList Nat)
        (RangeBound.included 1) (RangeBound.excluded 4) = some s ∧
      s.length = 3 ∧ ∀ i, i < s.length → s[i]? = ([1, 2, 3, 4, 5] : List Nat)[1 + i]?) ∧
    RList.watchInit (⟨[1, 2, 3]⟩ : RList Nat)
      (RangeBound.included 10) (RangeBound.excluded 20) = none ∧
    RList.watchInit (⟨[1, 2, 3]⟩ : RList Nat)
      (RangeBound.included 2) (RangeBound.excluded 2) = none := by
  refine ⟨?_, ?_, ?_⟩
  · have h := (rlist_watch_initial_invocation (⟨[1, 2, 3, 4, 5]⟩ : RList Nat)
      (RangeBound.included 1) (RangeBound.excluded 4)).1 (by constructor <;> decide)
    simpa [startIndex, endIndex] using h
  · exact (rlist_watch_initial_invocation (⟨[1, 2, 3]⟩ : RList Nat)
      (RangeBound.included 10) (RangeBound.excluded 20)).2 (by decide)
  · exact (rlist_watch_initial_invocation (⟨[1, 2, 3]⟩ : RList Nat)
      (RangeBound.included 2) (RangeBound.excluded 2)).2 (by decide)

end Nami
